import Mathlib

/-!
Shallow embedding of the PDF dark-mode transformation engine
(`src/lib/pdf-processor.ts`) and proofs about its contracts.

Conventions of the embedding:
* pdf-lib drawing calls (`drawRectangle`, `drawLine`, `drawText`) become
  constructors of `DrawOp`; a page records its size and the list of drawing
  operations layered onto it, in call order.
* Numbers that the TypeScript code holds as JS numbers are modelled as `Rat`;
  every constant in the engine is an exact decimal.
* Effects of the external pdf-lib library (parsing, font embedding, per-page
  drawing faults, saving) are an explicit environment `Env`; the engine code
  itself is translated directly.
* Fallible code returns values, never raises: `processPDF` and `validatePDF`
  are total Lean functions, which embeds the source property that the caller
  always receives a well-formed result object.
-/

/-- An rgb colour as produced by the pdf-lib `rgb` helper; channels in [0,1]. -/
structure Color where
  r : Rat
  g : Rat
  b : Rat
deriving DecidableEq

/-- Channel-wise scaling, modelling expressions such as
`rgb(textColor.r * 0.7, textColor.g * 0.7, textColor.b * 0.7)`. -/
def Color.scale (c : Color) (k : Rat) : Color :=
  ⟨c.r * k, c.g * k, c.b * k⟩

/-- The two standard fonts the engine embeds: Helvetica as the primary,
Courier as the fallback (`StandardFonts.Helvetica` / `StandardFonts.Courier`). -/
inductive Font where
  | helvetica
  | courier
deriving DecidableEq

/-- One pdf-lib drawing call recorded on a page.
`rect` carries the optional fill colour and the optional border of
`drawRectangle`; `line` carries the endpoints, thickness, colour and opacity
of `drawLine`; `text` carries the string, position, size, font, colour and
opacity of `drawText`. -/
inductive DrawOp where
  | rect (x y width height : Rat) (color : Option Color) (opacity : Rat)
      (borderColor : Option Color) (borderWidth : Option Rat)
  | line (startX startY endX endY thickness : Rat) (color : Color) (opacity : Rat)
  | text (content : String) (x y size : Rat) (font : Font) (color : Color) (opacity : Rat)
deriving DecidableEq

/-- A PDF page: fixed size plus the drawing operations layered onto its
content, in the order they were issued. -/
structure Page where
  width : Rat
  height : Rat
  ops : List DrawOp
deriving DecidableEq

/-- The `ProcessingOptions` interface. `inversionMode` is a string so that the
default branch of the strategy switch is observable, as the spec requires. -/
structure ProcessingOptions where
  inversionMode : String
  backgroundColor : Color
  textColor : Color
  preserveImages : Bool
  addWatermark : Bool
  gridPattern : Bool
deriving DecidableEq

/-- The `ProcessingResult` interface; byte buffers are lists of byte values. -/
structure ProcessingResult where
  success : Bool
  pdfBytes : Option (List Nat)
  pageCount : Nat
  originalSize : Nat
  processedSize : Nat
  processingTime : Nat
  errors : Option (List String)
deriving DecidableEq

/-- Caller-supplied overrides, modelling the `Partial ProcessingOptions`
argument of the `PDFProcessor` constructor. -/
structure OptionsOverride where
  inversionMode : Option String
  backgroundColor : Option Color
  textColor : Option Color
  preserveImages : Option Bool
  addWatermark : Option Bool
  gridPattern : Option Bool
deriving DecidableEq

/-- The constructor defaults of `PDFProcessor` (lines 29-37 of the source). -/
def defaultOptions : ProcessingOptions where
  inversionMode := "true-inversion"
  backgroundColor := ⟨0.2, 0.2, 0.2⟩
  textColor := ⟨0.9, 0.9, 0.9⟩
  preserveImages := true
  addWatermark := true
  gridPattern := false

/-- The object-spread merge performed by the `PDFProcessor` constructor:
every supplied field overrides the default. -/
def mkProcessorOptions (o : OptionsOverride) : ProcessingOptions where
  inversionMode := o.inversionMode.getD defaultOptions.inversionMode
  backgroundColor := o.backgroundColor.getD defaultOptions.backgroundColor
  textColor := o.textColor.getD defaultOptions.textColor
  preserveImages := o.preserveImages.getD defaultOptions.preserveImages
  addWatermark := o.addWatermark.getD defaultOptions.addWatermark
  gridPattern := o.gridPattern.getD defaultOptions.gridPattern

/-- `addPageDecorations`: skipped entirely when no font is set; otherwise the
three watermark texts (gated by `addWatermark`) followed by the border
rectangle, exactly as in lines 270-319 of the source. `ts` is the wall-clock
timestamp string interpolated into the third text. -/
def addPageDecorations (opts : ProcessingOptions) (font : Option Font) (ts : String)
    (pageNumber totalPages : Nat) (width height : Rat) : List DrawOp :=
  match font with
  | none => []
  | some f =>
    (if opts.addWatermark then
      [DrawOp.text "DARK MODE" (width - 100) (height - 20) 8 f (opts.textColor.scale 0.7) 0.6,
       DrawOp.text (toString pageNumber ++ "/" ++ toString totalPages) 20 (height - 20) 8 f
         (opts.textColor.scale 0.6) 0.6,
       DrawOp.text ("Processed: " ++ ts) 20 15 6 f (opts.textColor.scale 0.5) 0.4]
    else []) ++
    [DrawOp.rect 2 2 (width - 4) (height - 4) none 0.3
      (some (opts.textColor.scale 0.3)) (some 0.5)]

/-- `applyOverlayInversion`: one full-page background rectangle at opacity 0.8,
then the shared decorations. -/
def applyOverlayInversion (opts : ProcessingOptions) (font : Option Font) (ts : String)
    (pageNumber totalPages : Nat) (width height : Rat) : List DrawOp :=
  DrawOp.rect 0 0 width height (some opts.backgroundColor) 0.8 none none ::
    addPageDecorations opts font ts pageNumber totalPages width height

/-- Number of iterations of the texture loop
`for (x = -height; x < width + height; x += 30)`: the least n with
`-height + 30 * n ≥ width + height`. -/
def textureLineCount (width height : Rat) : Nat :=
  (⌈(width + 2 * height) / 30⌉).toNat

/-- `addTexturePattern`: diagonal 45-degree lines spaced 30 units apart,
running the source loop from `x = -height` while `x < width + height`. -/
def addTexturePattern (width height : Rat) : List DrawOp :=
  (List.range (textureLineCount width height)).map fun k =>
    DrawOp.line (-height + 30 * (k : Rat)) 0 (-height + 30 * (k : Rat) + height) height
      0.2 ⟨0.1, 0.1, 0.1⟩ 0.1

/-- `applyAdvancedInversion`: 6 horizontal bands of height `height / 6`, band i
at `y = i * (height / 6)` with opacity `0.75 + (i / 6) * 0.2`, then the
optional texture, then the shared decorations. -/
def applyAdvancedInversion (opts : ProcessingOptions) (font : Option Font) (ts : String)
    (pageNumber totalPages : Nat) (width height : Rat) : List DrawOp :=
  ((List.range 6).map fun i =>
    DrawOp.rect 0 ((i : Rat) * (height / 6)) width (height / 6)
      (some opts.backgroundColor) (0.75 + ((i : Rat) / 6) * 0.2) none none) ++
  ((if opts.gridPattern then addTexturePattern width height else []) ++
    addPageDecorations opts font ts pageNumber totalPages width height)

/-- An image-safe zone rectangle of `detectPotentialImageAreas`. -/
structure Area where
  x : Rat
  y : Rat
  width : Rat
  height : Rat
deriving DecidableEq

/-- `detectPotentialImageAreas`: the three fixed fractional rectangles of the
source heuristic (y measured from the page bottom, the pdf-lib convention). -/
def detectPotentialImageAreas (pageWidth pageHeight : Rat) : List Area :=
  [⟨pageWidth * 0.1, pageHeight * 0.6, pageWidth * 0.8, pageHeight * 0.3⟩,
   ⟨pageWidth * 0.05, pageHeight * 0.1, pageWidth * 0.4, pageHeight * 0.4⟩,
   ⟨pageWidth * 0.55, pageHeight * 0.1, pageWidth * 0.4, pageHeight * 0.4⟩]

/-- `applyPreserveImagesInversion`: a full-page background rectangle at opacity
0.7, a white rectangle at opacity 0.15 per image-safe zone, then decorations. -/
def applyPreserveImagesInversion (opts : ProcessingOptions) (font : Option Font) (ts : String)
    (pageNumber totalPages : Nat) (width height : Rat) : List DrawOp :=
  DrawOp.rect 0 0 width height (some opts.backgroundColor) 0.7 none none ::
    (((detectPotentialImageAreas width height).map fun a =>
      DrawOp.rect a.x a.y a.width a.height (some ⟨1, 1, 1⟩) 0.15 none none) ++
     addPageDecorations opts font ts pageNumber totalPages width height)

/-- `applyTrueInversion`: opaque white, opaque 50-percent gray, then white at
opacity 0.5, each full page, then the shared decorations. -/
def applyTrueInversion (opts : ProcessingOptions) (font : Option Font) (ts : String)
    (pageNumber totalPages : Nat) (width height : Rat) : List DrawOp :=
  [DrawOp.rect 0 0 width height (some ⟨1, 1, 1⟩) 1 none none,
   DrawOp.rect 0 0 width height (some ⟨0.5, 0.5, 0.5⟩) 1 none none,
   DrawOp.rect 0 0 width height (some ⟨1, 1, 1⟩) 0.5 none none] ++
  addPageDecorations opts font ts pageNumber totalPages width height

/-- The strategy switch of `processPage` (lines 108-123), including the
default branch that falls back to the overlay strategy. -/
def pageOps (opts : ProcessingOptions) (font : Option Font) (ts : String)
    (pageNumber totalPages : Nat) (width height : Rat) : List DrawOp :=
  if opts.inversionMode = "overlay" then
    applyOverlayInversion opts font ts pageNumber totalPages width height
  else if opts.inversionMode = "advanced" then
    applyAdvancedInversion opts font ts pageNumber totalPages width height
  else if opts.inversionMode = "preserve-images" then
    applyPreserveImagesInversion opts font ts pageNumber totalPages width height
  else if opts.inversionMode = "true-inversion" then
    applyTrueInversion opts font ts pageNumber totalPages width height
  else
    applyOverlayInversion opts font ts pageNumber totalPages width height

/-- `processPage` mutates a page only by appending drawing operations. -/
def processPage (opts : ProcessingOptions) (font : Option Font) (ts : String)
    (pageNumber totalPages : Nat) (page : Page) : Page :=
  { page with
    ops := page.ops ++ pageOps opts font ts pageNumber totalPages page.width page.height }

/-- Outcomes of the external pdf-lib effects during one `processPDF` run:
the parse result of the input bytes, whether each standard-font embed call
succeeds, which page transforms raise (0-based index, with the raised
message), whether `save` succeeds, the elapsed wall-clock milliseconds and
the timestamp string used by the decorations. -/
structure Env where
  loaded : Except String (List Page)
  primaryFontOk : Bool
  fallbackFontOk : Bool
  pageThrow : Nat → Option String
  saveOk : Bool
  elapsedMs : Nat
  timestamp : String

/-- Lines 56-61 of the source: embed Helvetica; on failure embed Courier
inside the catch block, so a failure of the fallback escapes to the outer
handler of `processPDF`. -/
def embedFontStep (primaryOk fallbackOk : Bool) : Except String Font :=
  if primaryOk then Except.ok Font.helvetica
  else if fallbackOk then Except.ok Font.courier
  else Except.error "Font embedding failed"

/-- The error string pushed by the per-page catch handler (line 68). -/
def errMsg (pageNumber : Nat) (m : String) : String :=
  "Failed to process page " ++ toString pageNumber ++ ": " ++ m

/-- The per-page loop of `processPDF` (lines 64-72): pages in ascending order,
a raising transform leaves its page as it was and records one error string,
a non-raising transform is applied; `i` is the 0-based index of the first
page of the remaining list. Returns the pages and the accumulated errors. -/
def runPages (opts : ProcessingOptions) (font : Option Font) (ts : String)
    (pt : Nat → Option String) (total : Nat) :
    List Page → Nat → List Page × List String
  | [], _ => ([], [])
  | p :: rest, i =>
    let next := runPages opts font ts pt total rest (i + 1)
    match pt i with
    | some m => (p :: next.1, errMsg (i + 1) m :: next.2)
    | none => (processPage opts font ts (i + 1) total p :: next.1, next.2)

/-- The error strings produced by `n` loop iterations starting at 0-based
page index `i`; closed form of the second component of `runPages`. -/
def failList (pt : Nat → Option String) : Nat → Nat → List String
  | _, 0 => []
  | i, n + 1 =>
    (match pt i with
     | some m => [errMsg (i + 1) m]
     | none => []) ++ failList pt (i + 1) n

/-- Model of the pdf-lib `save` step: every serialized document begins with
the four magic bytes of the PDF header; the per-object encoding is abstracted
to one size entry per page. -/
def serializePDF (pages : List Page) : List Nat :=
  [37, 80, 68, 70] ++ pages.map fun p => p.ops.length

/-- The failure result built by the outer catch handler of `processPDF`
(lines 92-102): unsuccessful, zero page count and processed size, exactly one
error string. -/
def fatalResult (originalSize time : Nat) (m : String) : ProcessingResult where
  success := false
  pdfBytes := none
  pageCount := 0
  originalSize := originalSize
  processedSize := 0
  processingTime := time
  errors := some [m]

/-- `processPDF` (lines 40-103): load, reject zero pages, embed the font,
run the per-page loop, save, and assemble the result; any fatal error is
caught at the boundary and reported through `fatalResult`. -/
def processPDF (opts : ProcessingOptions) (env : Env) (input : List Nat) : ProcessingResult :=
  match env.loaded with
  | Except.error e => fatalResult input.length env.elapsedMs e
  | Except.ok pages =>
    if pages.length = 0 then
      fatalResult input.length env.elapsedMs "PDF contains no pages"
    else
      match embedFontStep env.primaryFontOk env.fallbackFontOk with
      | Except.error e => fatalResult input.length env.elapsedMs e
      | Except.ok f =>
        let processed := runPages opts (some f) env.timestamp env.pageThrow pages.length pages 0
        if env.saveOk then
          { success := true
            pdfBytes := some (serializePDF processed.1)
            pageCount := pages.length
            originalSize := input.length
            processedSize := (serializePDF processed.1).length
            processingTime := env.elapsedMs
            errors := if processed.2 = [] then none else some processed.2 }
        else
          fatalResult input.length env.elapsedMs "Failed to save PDF"

/-- The result record of the static `validatePDF` utility. -/
structure ValidationResult where
  valid : Bool
  error : Option String
  pageCount : Option Nat
deriving DecidableEq

/-- `validatePDF` (lines 322-342) over the parse outcome of the input bytes:
a parse failure, an empty document and a document of more than 1000 pages are
invalid; everything else is valid with its page count. -/
def validatePDF (loaded : Except String Nat) : ValidationResult :=
  match loaded with
  | Except.error e => { valid := false, error := some e, pageCount := none }
  | Except.ok n =>
    if n = 0 then
      { valid := false, error := some "PDF contains no pages", pageCount := none }
    else if n > 1000 then
      { valid := false, error := some "PDF has too many pages (maximum 1000 supported)",
        pageCount := none }
    else
      { valid := true, error := none, pageCount := some n }

/-- The `baseOptions` record of `getPresetOptions` (lines 346-353). -/
def baseOptions : ProcessingOptions where
  inversionMode := "true-inversion"
  backgroundColor := ⟨0.2, 0.2, 0.2⟩
  textColor := ⟨0.9, 0.9, 0.9⟩
  preserveImages := true
  addWatermark := true
  gridPattern := false

/-- `getPresetOptions` (lines 345-382): the three named presets override the
base record; any other name falls through to the base record. -/
def getPresetOptions (preset : String) : ProcessingOptions :=
  if preset = "reading" then
    { baseOptions with
      backgroundColor := ⟨0.15, 0.15, 0.15⟩
      textColor := ⟨0.95, 0.95, 0.95⟩
      inversionMode := "true-inversion" }
  else if preset = "printing" then
    { baseOptions with
      backgroundColor := ⟨0.25, 0.25, 0.25⟩
      textColor := ⟨0.85, 0.85, 0.85⟩
      addWatermark := false
      inversionMode := "true-inversion" }
  else if preset = "presentation" then
    { baseOptions with
      backgroundColor := ⟨0.15, 0.15, 0.2⟩
      textColor := ⟨0.9, 0.9, 0.95⟩
      gridPattern := true
      inversionMode := "true-inversion" }
  else
    baseOptions

/-! ### Helper lemmas about the per-page loop -/

lemma runPages_fst_length (opts : ProcessingOptions) (font : Option Font) (ts : String)
    (pt : Nat → Option String) (total : Nat) :
    ∀ (pages : List Page) (i : Nat),
      (runPages opts font ts pt total pages i).1.length = pages.length := by
  intro pages
  induction pages with
  | nil => intro i; rfl
  | cons p rest ih =>
    intro i
    simp only [runPages]
    cases pt i <;> simp [ih (i + 1)]

lemma runPages_snd_eq_failList (opts : ProcessingOptions) (font : Option Font) (ts : String)
    (pt : Nat → Option String) (total : Nat) :
    ∀ (pages : List Page) (i : Nat),
      (runPages opts font ts pt total pages i).2 = failList pt i pages.length := by
  intro pages
  induction pages with
  | nil => intro i; rfl
  | cons p rest ih =>
    intro i
    simp only [runPages, List.length_cons, failList]
    cases pt i <;> simp [ih (i + 1)]

lemma runPages_fst_getElem (opts : ProcessingOptions) (font : Option Font) (ts : String)
    (pt : Nat → Option String) (total : Nat) :
    ∀ (pages : List Page) (i k : Nat),
      (runPages opts font ts pt total pages i).1[k]? =
        (pages[k]?).map fun p =>
          match pt (i + k) with
          | some _ => p
          | none => processPage opts font ts (i + k + 1) total p := by
  intro pages
  induction pages with
  | nil => intro i k; simp [runPages]
  | cons p rest ih =>
    intro i k
    simp only [runPages]
    cases k with
    | zero =>
      cases hpt : pt i <;> simp [hpt]
    | succ k =>
      have hidx : i + 1 + k = i + (k + 1) := by omega
      cases hpt : pt i <;>
        simp [ih (i + 1) k, hidx]

lemma failList_eq_nil_iff (pt : Nat → Option String) :
    ∀ (n i : Nat), failList pt i n = [] ↔ ∀ k, k < n → pt (i + k) = none := by
  intro n
  induction n with
  | zero => intro i; simp [failList]
  | succ n ih =>
    intro i
    simp only [failList, List.append_eq_nil]
    constructor
    · rintro ⟨h1, h2⟩ k hk
      cases k with
      | zero =>
        cases hpt : pt i with
        | none => simpa using hpt
        | some m => simp [hpt] at h1
      | succ k =>
        have := (ih (i + 1)).mp h2 k (by omega)
        simpa [Nat.add_assoc, Nat.add_comm 1 k] using this
    · intro h
      refine ⟨?_, (ih (i + 1)).mpr ?_⟩
      · have := h 0 (by omega)
        simp only [Nat.add_zero] at this
        simp [this]
      · intro k hk
        have := h (k + 1) (by omega)
        simpa [Nat.add_assoc, Nat.add_comm 1 k] using this

lemma failList_length (pt : Nat → Option String) :
    ∀ (n i : Nat),
      (failList pt i n).length =
        ((List.range n).filter fun k => (pt (i + k)).isSome).length := by
  intro n
  induction n with
  | zero => intro i; simp [failList]
  | succ n ih =>
    intro i
    have hcong : ((List.range n).filter ((fun k => (pt (i + k)).isSome) ∘ Nat.succ)) =
        (List.range n).filter fun k => (pt (i + 1 + k)).isSome := by
      apply List.filter_congr
      intro k _
      simp only [Function.comp_apply]
      have hidx : i + Nat.succ k = i + 1 + k := by omega
      rw [hidx]
    rw [List.range_succ_eq_map, List.filter_cons, List.filter_map]
    cases hpt : pt i with
    | none =>
      simp only [failList, hpt, List.nil_append, Nat.add_zero, Option.isSome_none,
        Bool.false_eq_true, if_false, List.length_map, hcong, ih (i + 1)]
    | some m =>
      simp only [failList, hpt, List.singleton_append, Nat.add_zero, Option.isSome_some,
        if_true, List.length_cons, List.length_map, hcong, ih (i + 1)]

lemma failList_mem (pt : Nat → Option String) :
    ∀ (n i k : Nat) (m : String), k < n → pt (i + k) = some m →
      errMsg (i + k + 1) m ∈ failList pt i n := by
  intro n
  induction n with
  | zero => intro i k m hk; omega
  | succ n ih =>
    intro i k m hk hpt
    simp only [failList]
    cases k with
    | zero =>
      simp only [Nat.add_zero] at hpt
      simp [hpt]
    | succ k =>
      apply List.mem_append_right
      have hidx : i + (k + 1) = i + 1 + k := by omega
      rw [hidx] at hpt ⊢
      exact ih (i + 1) k m (by omega) hpt

lemma serializePDF_length_pos (pages : List Page) : 0 < (serializePDF pages).length := by
  simp [serializePDF]

/-- The fully successful unfolding of `processPDF`: a loadable nonempty
document, a usable font and a working save step yield the success record. -/
lemma processPDF_success_eq (opts : ProcessingOptions) (env : Env) (input : List Nat)
    (pages : List Page) (f : Font) (hload : env.loaded = Except.ok pages)
    (hne : pages.length ≠ 0)
    (hfont : embedFontStep env.primaryFontOk env.fallbackFontOk = Except.ok f)
    (hsave : env.saveOk = true) :
    processPDF opts env input =
      { success := true
        pdfBytes := some (serializePDF
          (runPages opts (some f) env.timestamp env.pageThrow pages.length pages 0).1)
        pageCount := pages.length
        originalSize := input.length
        processedSize := (serializePDF
          (runPages opts (some f) env.timestamp env.pageThrow pages.length pages 0).1).length
        processingTime := env.elapsedMs
        errors :=
          if failList env.pageThrow 0 pages.length = [] then none
          else some (failList env.pageThrow 0 pages.length) } := by
  simp only [processPDF, hload, hne, if_false, hfont, hsave, if_true,
    runPages_snd_eq_failList]

/-! ### Concrete data for the witnesses -/

/-- A one-page US-letter document with untouched content. -/
def pageA : Page := ⟨612, 792, []⟩

/-- An environment in which everything external succeeds on a one-page
document. -/
def envOkNoFail : Env where
  loaded := Except.ok [pageA]
  primaryFontOk := true
  fallbackFontOk := true
  pageThrow := fun _ => none
  saveOk := true
  elapsedMs := 5
  timestamp := "now"

/-! ### Claim theorems -/

/-- C1: `processPDF` is a total function into `ProcessingResult`, so no fault
passes its boundary; every unsuccessful result carries `pageCount 0`,
`processedSize 0` and exactly one error string; an unparseable input, a
zero-page document and a save failure each force an unsuccessful result; and
whenever `success` is true the result reports the page count of the loaded
document and a positive `processedSize`. -/
theorem processPDF_contract (opts : ProcessingOptions) (env : Env) (input : List Nat) :
    ((processPDF opts env input).success = false →
      (processPDF opts env input).pageCount = 0 ∧
      (processPDF opts env input).processedSize = 0 ∧
      ∃ m, (processPDF opts env input).errors = some [m]) ∧
    (∀ e, env.loaded = Except.error e → (processPDF opts env input).success = false) ∧
    (∀ pages, env.loaded = Except.ok pages → pages.length = 0 →
      (processPDF opts env input).success = false) ∧
    (env.saveOk = false → (processPDF opts env input).success = false) ∧
    (∀ pages, env.loaded = Except.ok pages → (processPDF opts env input).success = true →
      (processPDF opts env input).pageCount = pages.length ∧
      0 < (processPDF opts env input).processedSize) := by
  obtain ⟨ld, pf, ff, pt, so, em, ts⟩ := env
  cases ld with
  | error e => simp [processPDF, fatalResult]
  | ok pages =>
    by_cases hp : pages.length = 0
    · simp [processPDF, hp, fatalResult]
    · cases hef : embedFontStep pf ff with
      | error e => simp [processPDF, hp, hef, fatalResult]
      | ok f =>
        cases so with
        | false => simp [processPDF, hp, hef, fatalResult]
        | true =>
          simp only [processPDF, hp, if_false, hef, if_true, serializePDF]
          refine ⟨by simp, by simp, ?_, by simp, ?_⟩
          · intro ps hps hlen
            injection hps with hps
            subst hps
            exact absurd hlen hp
          · intro ps hps _
            injection hps with hps
            subst hps
            simp

/-- Witness for C1 at a concrete fully successful run. -/
theorem processPDF_contract_witness :
    (processPDF defaultOptions envOkNoFail [37]).pageCount = 1 ∧
    0 < (processPDF defaultOptions envOkNoFail [37]).processedSize := by
  have h := (processPDF_contract defaultOptions envOkNoFail [37]).2.2.2.2 [pageA] rfl
    (by decide)
  simpa using h

/-- C2: `validatePDF` is total (never raises); on a parseable document of `n`
pages it is valid with page count `n` exactly when `1 ≤ n ≤ 1000`; a zero-page
document yields the empty-document error, more than 1000 pages yields the
too-many-pages error, and a parse failure yields an invalid result carrying
the parse error. -/
theorem validatePDF_contract (loaded : Except String Nat) :
    (∀ n, loaded = Except.ok n →
      (((validatePDF loaded).valid = true ∧ (validatePDF loaded).pageCount = some n) ↔
        1 ≤ n ∧ n ≤ 1000)) ∧
    (loaded = Except.ok 0 →
      validatePDF loaded =
        { valid := false, error := some "PDF contains no pages", pageCount := none }) ∧
    (∀ n, loaded = Except.ok n → 1000 < n →
      validatePDF loaded =
        { valid := false, error := some "PDF has too many pages (maximum 1000 supported)",
          pageCount := none }) ∧
    (∀ e, loaded = Except.error e →
      (validatePDF loaded).valid = false ∧ (validatePDF loaded).error = some e) := by
  cases loaded with
  | error e => simp [validatePDF]
  | ok n =>
    refine ⟨?_, ?_, ?_, ?_⟩
    · intro m hm
      injection hm with hm
      subst hm
      simp only [validatePDF]
      by_cases h0 : n = 0
      · subst h0; simp
      · rw [if_neg h0]
        by_cases h1 : n > 1000
        · rw [if_pos h1]; simp; omega
        · rw [if_neg h1]; simp; omega
    · intro hm
      injection hm with hm
      subst hm
      simp [validatePDF]
    · intro m hm hgt
      injection hm with hm
      subst hm
      have h0 : ¬n = 0 := by omega
      simp [validatePDF, h0, hgt]
    · intro e hm
      exact absurd hm (by simp)

/-- Witness for C2 at a parseable five-page document. -/
theorem validatePDF_contract_witness :
    (validatePDF (Except.ok 5)).valid = true ∧
    (validatePDF (Except.ok 5)).pageCount = some 5 :=
  ((validatePDF_contract (Except.ok 5)).1 5 rfl).mpr (by omega)

/-- C3: the three named presets of `getPresetOptions` carry exactly the
documented background, text, watermark and texture values, and every other
mode name yields the documented default record instead of failing. -/
theorem getPresetOptions_contract :
    getPresetOptions "reading" =
      { inversionMode := "true-inversion", backgroundColor := ⟨0.15, 0.15, 0.15⟩,
        textColor := ⟨0.95, 0.95, 0.95⟩, preserveImages := true, addWatermark := true,
        gridPattern := false } ∧
    getPresetOptions "printing" =
      { inversionMode := "true-inversion", backgroundColor := ⟨0.25, 0.25, 0.25⟩,
        textColor := ⟨0.85, 0.85, 0.85⟩, preserveImages := true, addWatermark := false,
        gridPattern := false } ∧
    getPresetOptions "presentation" =
      { inversionMode := "true-inversion", backgroundColor := ⟨0.15, 0.15, 0.2⟩,
        textColor := ⟨0.9, 0.9, 0.95⟩, preserveImages := true, addWatermark := true,
        gridPattern := true } ∧
    ∀ mode, mode ≠ "reading" → mode ≠ "printing" → mode ≠ "presentation" →
      getPresetOptions mode =
        { inversionMode := "true-inversion", backgroundColor := ⟨0.2, 0.2, 0.2⟩,
          textColor := ⟨0.9, 0.9, 0.9⟩, preserveImages := true, addWatermark := true,
          gridPattern := false } := by
  refine ⟨rfl, rfl, rfl, ?_⟩
  intro mode h1 h2 h3
  unfold getPresetOptions
  rw [if_neg h1, if_neg h2, if_neg h3]
  rfl

/-- Witness for C3 at the unrecognized mode name of the spec scenario. -/
theorem getPresetOptions_contract_witness :
    getPresetOptions "xyz" =
      { inversionMode := "true-inversion", backgroundColor := ⟨0.2, 0.2, 0.2⟩,
        textColor := ⟨0.9, 0.9, 0.9⟩, preserveImages := true, addWatermark := true,
        gridPattern := false } :=
  getPresetOptions_contract.2.2.2 "xyz" (by decide) (by decide) (by decide)

/-- C4: with a loadable nonempty document, a usable primary font and a working
save step, a page transform that raises at index `k` leaves the run
successful, records exactly the string naming the 1-based page number and the
detail in the error list of the result, and the loop still transforms every
non-raising page (and leaves a raising page as it was). -/
theorem perPage_failure_isolation (opts : ProcessingOptions) (env : Env) (input : List Nat)
    (pages : List Page) (hload : env.loaded = Except.ok pages) (hne : pages.length ≠ 0)
    (hfont : env.primaryFontOk = true) (hsave : env.saveOk = true) :
    (processPDF opts env input).success = true ∧
    (∀ k m, k < pages.length → env.pageThrow k = some m →
      ∃ l, (processPDF opts env input).errors = some l ∧ errMsg (k + 1) m ∈ l) ∧
    (∀ k p, pages[k]? = some p → env.pageThrow k = none →
      (runPages opts (some Font.helvetica) env.timestamp env.pageThrow
        pages.length pages 0).1[k]? =
        some (processPage opts (some Font.helvetica) env.timestamp (k + 1) pages.length p)) ∧
    (∀ k p, pages[k]? = some p → (env.pageThrow k).isSome = true →
      (runPages opts (some Font.helvetica) env.timestamp env.pageThrow
        pages.length pages 0).1[k]? = some p) := by
  have hef : embedFontStep env.primaryFontOk env.fallbackFontOk = Except.ok Font.helvetica := by
    simp [embedFontStep, hfont]
  have heq := processPDF_success_eq opts env input pages Font.helvetica hload hne hef hsave
  refine ⟨by rw [heq], ?_, ?_, ?_⟩
  · intro k m hk hpt
    have hmem : errMsg (k + 1) m ∈ failList env.pageThrow 0 pages.length := by
      have := failList_mem env.pageThrow pages.length 0 k m hk (by simpa using hpt)
      simpa using this
    refine ⟨failList env.pageThrow 0 pages.length, ?_, hmem⟩
    rw [heq]
    simp [List.ne_nil_of_mem hmem]
  · intro k p hp hpt
    rw [runPages_fst_getElem]
    simp [hp, hpt]
  · intro k p hp hpt
    obtain ⟨m, hm⟩ := Option.isSome_iff_exists.mp hpt
    rw [runPages_fst_getElem]
    simp [hp, hm]

/-- An environment whose first page transform raises, on a two-page document. -/
def envPageFail : Env where
  loaded := Except.ok [pageA, ⟨600, 800, []⟩]
  primaryFontOk := true
  fallbackFontOk := true
  pageThrow := fun i => if i = 0 then some "boom" else none
  saveOk := true
  elapsedMs := 0
  timestamp := "now"

/-- Witness for C4: the simulated fault on page 1 of a two-page run. -/
theorem perPage_failure_isolation_witness :
    (processPDF defaultOptions envPageFail []).success = true ∧
    ∃ l, (processPDF defaultOptions envPageFail []).errors = some l ∧
      errMsg 1 "boom" ∈ l := by
  have h := perPage_failure_isolation defaultOptions envPageFail [] [pageA, ⟨600, 800, []⟩]
    rfl (by decide) rfl rfl
  exact ⟨h.1, by simpa using h.2.1 0 "boom" (by decide) rfl⟩

/-- The fatal unfolding of `processPDF` when both font embeds fail: the
exception of the fallback embed escapes the inner catch block and reaches the
outer handler. -/
lemma processPDF_fontFail_eq (opts : ProcessingOptions) (env : Env) (input : List Nat)
    (pages : List Page) (hload : env.loaded = Except.ok pages) (hne : pages.length ≠ 0)
    (hpf : env.primaryFontOk = false) (hff : env.fallbackFontOk = false) :
    processPDF opts env input =
      fatalResult input.length env.elapsedMs "Font embedding failed" := by
  have hef : embedFontStep env.primaryFontOk env.fallbackFontOk =
      Except.error "Font embedding failed" := by
    simp [embedFontStep, hpf, hff]
  simp only [processPDF, hload, hne, if_false, hef]

/-- An environment in which both font embeds fail and everything else
succeeds, on a one-page document. -/
def envFontsFail : Env where
  loaded := Except.ok [pageA]
  primaryFontOk := false
  fallbackFontOk := false
  pageThrow := fun _ => none
  saveOk := true
  elapsedMs := 0
  timestamp := "now"

/-- C5 counterexample: on a loadable one-page document with a working save
step, failing both font embeds alone already makes the run unsuccessful with
no output bytes — the run does not continue to produce output, refuting the
claim that total font failure merely skips decorations. -/
theorem fontFailure_counterexample :
    envFontsFail.loaded = Except.ok [pageA] ∧ envFontsFail.saveOk = true ∧
    (∀ i, envFontsFail.pageThrow i = none) ∧
    (processPDF defaultOptions envFontsFail []).success = false ∧
    (processPDF defaultOptions envFontsFail []).pdfBytes = none := by
  exact ⟨rfl, rfl, fun i => rfl, rfl, rfl⟩

/-- C5 amended: when the primary embed fails and the fallback succeeds the run
uses Courier and still succeeds; when both embeds fail the exception escapes
the font step and the run returns an unsuccessful result with a single error,
rather than continuing; the decoration routine itself draws nothing when no
font is set (a guard that the `processPDF` path cannot reach once both embeds
raise). -/
theorem fontFallback_behavior (opts : ProcessingOptions) (env : Env) (input : List Nat)
    (pages : List Page) (hload : env.loaded = Except.ok pages) (hne : pages.length ≠ 0)
    (hpf : env.primaryFontOk = false) :
    (env.fallbackFontOk = true →
      embedFontStep env.primaryFontOk env.fallbackFontOk = Except.ok Font.courier ∧
      (env.saveOk = true → (processPDF opts env input).success = true)) ∧
    (env.fallbackFontOk = false →
      (processPDF opts env input).success = false ∧
      ∃ m, (processPDF opts env input).errors = some [m]) ∧
    (∀ ts n tp w h, addPageDecorations opts none ts n tp w h = []) := by
  refine ⟨?_, ?_, fun ts n tp w h => rfl⟩
  · intro hff
    have hef : embedFontStep env.primaryFontOk env.fallbackFontOk =
        Except.ok Font.courier := by
      simp [embedFontStep, hpf, hff]
    refine ⟨hef, fun hsave => ?_⟩
    rw [processPDF_success_eq opts env input pages Font.courier hload hne hef hsave]
  · intro hff
    rw [processPDF_fontFail_eq opts env input pages hload hne hpf hff]
    exact ⟨rfl, ⟨_, rfl⟩⟩

/-- An environment in which only the primary font embed fails. -/
def envPrimaryFail : Env where
  loaded := Except.ok [pageA]
  primaryFontOk := false
  fallbackFontOk := true
  pageThrow := fun _ => none
  saveOk := true
  elapsedMs := 0
  timestamp := "now"

/-- Witness for the amended C5: the fallback path at a concrete run. -/
theorem fontFallback_behavior_witness :
    embedFontStep envPrimaryFail.primaryFontOk envPrimaryFail.fallbackFontOk =
      Except.ok Font.courier ∧
    (processPDF defaultOptions envPrimaryFail []).success = true := by
  have h := fontFallback_behavior defaultOptions envPrimaryFail [] [pageA] rfl (by decide) rfl
  exact ⟨(h.1 rfl).1, (h.1 rfl).2 rfl⟩

/-- C6: with `inversionMode` set to true-inversion, `processPage` appends to
the page exactly three full-page rectangles — opaque white, opaque 50-percent
gray, then white at opacity 0.5 — followed by the shared decoration step; and
true-inversion is the default strategy of the constructor and of every
preset. -/
theorem trueInversion_steps (opts : ProcessingOptions) (font : Option Font) (ts : String)
    (pageNumber totalPages : Nat) (page : Page)
    (h : opts.inversionMode = "true-inversion") :
    processPage opts font ts pageNumber totalPages page =
      { page with ops := page.ops ++
          ([DrawOp.rect 0 0 page.width page.height (some ⟨1, 1, 1⟩) 1 none none,
            DrawOp.rect 0 0 page.width page.height (some ⟨0.5, 0.5, 0.5⟩) 1 none none,
            DrawOp.rect 0 0 page.width page.height (some ⟨1, 1, 1⟩) 0.5 none none] ++
           addPageDecorations opts font ts pageNumber totalPages page.width page.height) } ∧
    defaultOptions.inversionMode = "true-inversion" ∧
    (∀ mode, (getPresetOptions mode).inversionMode = "true-inversion") := by
  refine ⟨?_, rfl, ?_⟩
  · simp only [processPage, pageOps, h]
    simp [applyTrueInversion]
  · intro mode
    by_cases h1 : mode = "reading"
    · simp [getPresetOptions, h1]
    · by_cases h2 : mode = "printing"
      · simp [getPresetOptions, h1, h2]
      · by_cases h3 : mode = "presentation"
        · simp [getPresetOptions, h1, h2, h3]
        · simp [getPresetOptions, h1, h2, h3, baseOptions]

/-- Witness for C6 at a concrete page with the default options. -/
theorem trueInversion_steps_witness :
    processPage defaultOptions (some Font.helvetica) "now" 1 1 pageA =
      { pageA with ops :=
          ([DrawOp.rect 0 0 pageA.width pageA.height (some ⟨1, 1, 1⟩) 1 none none,
            DrawOp.rect 0 0 pageA.width pageA.height (some ⟨0.5, 0.5, 0.5⟩) 1 none none,
            DrawOp.rect 0 0 pageA.width pageA.height (some ⟨1, 1, 1⟩) 0.5 none none] ++
           addPageDecorations defaultOptions (some Font.helvetica) "now" 1 1 pageA.width
             pageA.height) } := by
  have h := (trueInversion_steps defaultOptions (some Font.helvetica) "now" 1 1 pageA rfl).1
  simpa [pageA] using h

lemma textureLineCount_lt (width height : Rat) (k : Nat)
    (hk : k < textureLineCount width height) :
    -height + 30 * (k : Rat) < width + height := by
  unfold textureLineCount at hk
  have hz : (k : Int) < ⌈(width + 2 * height) / 30⌉ := Int.lt_toNat.mp hk
  have hq : ((k : Int) : Rat) < (width + 2 * height) / 30 := Int.lt_ceil.mp hz
  rw [lt_div_iff₀ (by norm_num : (0 : Rat) < 30)] at hq
  push_cast at hq
  linarith

lemma textureLineCount_ge (width height : Rat) :
    width + height ≤ -height + 30 * (textureLineCount width height : Rat) := by
  unfold textureLineCount
  have h1 : (width + 2 * height) / 30 ≤ (⌈(width + 2 * height) / 30⌉ : Rat) :=
    Int.le_ceil _
  have h2 : ((⌈(width + 2 * height) / 30⌉ : Int) : Rat) ≤
      ((⌈(width + 2 * height) / 30⌉.toNat : Nat) : Rat) := by
    exact_mod_cast Int.self_le_toNat _
  have h3 := le_trans h1 h2
  rw [div_le_iff₀ (by norm_num : (0 : Rat) < 30)] at h3
  linarith

/-- C7: with `inversionMode` set to advanced, `processPage` appends 6
horizontal bands of height `height / 6`, band `i` sitting at
`y = i * (height / 6)` with `backgroundColor` at opacity
`0.75 + (i / 6) * 0.2`; when `gridPattern` is set it additionally appends the
diagonal 45-degree texture lines at opacity 0.1 in near-black, whose x
positions start at `-height`, step by 30 and run exactly up to
`width + height`: every drawn line starts left of `width + height` and the
first undrawn position would already reach it. -/
theorem advancedInversion_geometry (opts : ProcessingOptions) (font : Option Font) (ts : String)
    (pageNumber totalPages : Nat) (page : Page)
    (h : opts.inversionMode = "advanced") :
    processPage opts font ts pageNumber totalPages page =
      { page with ops := page.ops ++
          (((List.range 6).map fun i =>
              DrawOp.rect 0 ((i : Rat) * (page.height / 6)) page.width (page.height / 6)
                (some opts.backgroundColor) (0.75 + ((i : Rat) / 6) * 0.2) none none) ++
           ((if opts.gridPattern then
               (List.range (textureLineCount page.width page.height)).map fun k =>
                 DrawOp.line (-page.height + 30 * (k : Rat)) 0
                   (-page.height + 30 * (k : Rat) + page.height) page.height 0.2
                   ⟨0.1, 0.1, 0.1⟩ 0.1
             else []) ++
            addPageDecorations opts font ts pageNumber totalPages page.width page.height)) } ∧
    (∀ k, k < textureLineCount page.width page.height →
      -page.height + 30 * (k : Rat) < page.width + page.height) ∧
    page.width + page.height ≤
      -page.height + 30 * (textureLineCount page.width page.height : Rat) := by
  refine ⟨?_, fun k hk => textureLineCount_lt _ _ k hk, textureLineCount_ge _ _⟩
  simp only [processPage, pageOps, h]
  simp [applyAdvancedInversion, addTexturePattern]

/-- Options selecting the advanced strategy with the texture enabled. -/
def advOptions : ProcessingOptions :=
  { defaultOptions with inversionMode := "advanced", gridPattern := true }

/-- Witness for C7: the texture loop bound at a concrete US-letter page. -/
theorem advancedInversion_geometry_witness :
    pageA.width + pageA.height ≤
      -pageA.height + 30 * (textureLineCount pageA.width pageA.height : Rat) :=
  (advancedInversion_geometry advOptions (some Font.helvetica) "now" 1 1 pageA rfl).2.2

/-- C8: with `inversionMode` set to preserve-images, `processPage` appends one
full-page `backgroundColor` rectangle at opacity 0.7 and then exactly three
white rectangles at opacity 0.15 placed at fixed fractions of the page (y
measured from the page bottom, the pdf-lib convention): one of 80 percent of
the width by 30 percent of the height with x at 10 percent of the width and y
at 60 percent of the height, and two of 40 percent of the width by 40 percent
of the height split left and right with y at 10 percent of the height —
followed by the shared decoration step. -/
theorem preserveImages_geometry (opts : ProcessingOptions) (font : Option Font) (ts : String)
    (pageNumber totalPages : Nat) (page : Page)
    (h : opts.inversionMode = "preserve-images") :
    processPage opts font ts pageNumber totalPages page =
      { page with ops := page.ops ++
          ([DrawOp.rect 0 0 page.width page.height (some opts.backgroundColor) 0.7 none none,
            DrawOp.rect (page.width * 0.1) (page.height * 0.6) (page.width * 0.8)
              (page.height * 0.3) (some ⟨1, 1, 1⟩) 0.15 none none,
            DrawOp.rect (page.width * 0.05) (page.height * 0.1) (page.width * 0.4)
              (page.height * 0.4) (some ⟨1, 1, 1⟩) 0.15 none none,
            DrawOp.rect (page.width * 0.55) (page.height * 0.1) (page.width * 0.4)
              (page.height * 0.4) (some ⟨1, 1, 1⟩) 0.15 none none] ++
           addPageDecorations opts font ts pageNumber totalPages page.width page.height) } := by
  simp only [processPage, pageOps, h]
  simp [applyPreserveImagesInversion, detectPotentialImageAreas]

/-- Options selecting the preserve-images strategy. -/
def piOptions : ProcessingOptions :=
  { defaultOptions with inversionMode := "preserve-images" }

/-- Witness for C8: with no font the strategy draws exactly the four
rectangles on a concrete page. -/
theorem preserveImages_geometry_witness :
    (processPage piOptions none "now" 1 1 ⟨100, 100, []⟩).ops.length = 4 := by
  rw [preserveImages_geometry piOptions none "now" 1 1 ⟨100, 100, []⟩ rfl]
  rfl

/-- C9: the per-page loop returns as many pages as it was given; every output
page keeps the width and the height of its input page and its operation list
extends the input operation list; and `processPage` itself never mutates the
page size and only appends drawing operations. -/
theorem structure_preservation (opts : ProcessingOptions) (font : Option Font) (ts : String)
    (pt : Nat → Option String) (total start : Nat) (pages : List Page) :
    (runPages opts font ts pt total pages start).1.length = pages.length ∧
    (∀ (k : Nat) (p q : Page), pages[k]? = some p →
      (runPages opts font ts pt total pages start).1[k]? = some q →
      q.width = p.width ∧ q.height = p.height ∧ ∃ t, q.ops = p.ops ++ t) ∧
    (∀ n tp pg, (processPage opts font ts n tp pg).width = pg.width ∧
      (processPage opts font ts n tp pg).height = pg.height ∧
      ∃ t, (processPage opts font ts n tp pg).ops = pg.ops ++ t) := by
  refine ⟨runPages_fst_length opts font ts pt total pages start, ?_, ?_⟩
  · intro k p q hp hq
    rw [runPages_fst_getElem, hp] at hq
    cases hpt : pt (start + k) with
    | some m =>
      simp [hpt] at hq
      obtain rfl := hq
      exact ⟨rfl, rfl, [], (List.append_nil _).symm⟩
    | none =>
      simp [hpt] at hq
      obtain rfl := hq
      exact ⟨rfl, rfl, _, rfl⟩
  · intro n tp pg
    exact ⟨rfl, rfl, _, rfl⟩

/-- Witness for C9 at a concrete one-page run. -/
theorem structure_preservation_witness :
    (runPages defaultOptions (some Font.helvetica) "now" (fun _ => none) 1 [pageA] 0).1.length
      = 1 :=
  (structure_preservation defaultOptions (some Font.helvetica) "now" (fun _ => none) 1 0
    [pageA]).1

/-- C10: on a successful run the errors field is absent exactly when no page
transform raised — a fully clean run reports `none`, never an empty list —
and when present the list is nonempty with exactly one entry per raising
page. -/
theorem errors_field_contract (opts : ProcessingOptions) (env : Env) (input : List Nat)
    (pages : List Page) (hload : env.loaded = Except.ok pages) (hne : pages.length ≠ 0)
    (hfont : env.primaryFontOk = true) (hsave : env.saveOk = true) :
    (processPDF opts env input).success = true ∧
    ((processPDF opts env input).errors = none ↔
      ∀ k, k < pages.length → env.pageThrow k = none) ∧
    (∀ l, (processPDF opts env input).errors = some l →
      l ≠ [] ∧
      l.length = ((List.range pages.length).filter fun k => (env.pageThrow k).isSome).length) := by
  have hef : embedFontStep env.primaryFontOk env.fallbackFontOk = Except.ok Font.helvetica := by
    simp [embedFontStep, hfont]
  have heq := processPDF_success_eq opts env input pages Font.helvetica hload hne hef hsave
  refine ⟨by rw [heq], ?_, ?_⟩
  · rw [heq]
    by_cases hf : failList env.pageThrow 0 pages.length = []
    · simp only [hf, if_true]
      simp only [true_iff, eq_self_iff_true]
      intro k hk
      have := (failList_eq_nil_iff env.pageThrow pages.length 0).mp hf k hk
      simpa using this
    · simp only [hf, if_false]
      constructor
      · intro habs; exact absurd habs (by simp)
      · intro hall
        exact absurd ((failList_eq_nil_iff env.pageThrow pages.length 0).mpr
          (fun k hk => by simpa using hall k hk)) hf
  · intro l hl
    rw [heq] at hl
    by_cases hf : failList env.pageThrow 0 pages.length = []
    · simp [hf] at hl
    · simp only [hf, if_false] at hl
      injection hl with hl
      subst hl
      refine ⟨hf, ?_⟩
      have := failList_length env.pageThrow pages.length 0
      simpa using this

/-- Witness for C10: a clean run reports an absent errors field. -/
theorem errors_field_contract_witness :
    (processPDF defaultOptions envOkNoFail [37]).errors = none := by
  have h := (errors_field_contract defaultOptions envOkNoFail [37] [pageA] rfl (by decide)
    rfl rfl).2.1
  exact h.mpr (fun k hk => rfl)
